import Mathlib

/-!
Shallow embedding of the humandns53 DNS server (`dnsserver.go`) and proofs
about its resolver, name codec, message codec and request handler.

Go strings and byte slices are modelled as `List Nat` (wire data satisfies
`b < 256`); machine integers are `Nat` with explicit `% 2 ^ w` at the points
where the Go code converts or truncates. Code that can panic at run time
(out-of-range slicing, `binary.BigEndian.Uint16` on a short slice) is
modelled with `Option`, `none` standing for the panic.
-/

namespace HumanDNS

/-- Record type A (IPv4 host address), from the constant block of `dnsserver.go`. -/
def TypeA : Nat := 1

/-- Record type AAAA (IPv6 host address). -/
def TypeAAAA : Nat := 28

/-- Class IN (the Internet). -/
def ClassINET : Nat := 1

/-- Header flag bit 15, set on responses (`1 << 15`). -/
def FlagResponse : Nat := 32768

/-- RFC 1035 maximum UDP message size; `main` always reads into a buffer of this size. -/
def UDPMaxMessageSizeBytes : Nat := 512

/-- `DNSHeader` of `dnsserver.go`: six 16-bit fields. -/
structure DNSHeader where
  transactionID : Nat
  flags : Nat
  numQuestions : Nat
  numAnswers : Nat
  numAuthorities : Nat
  numAdditionals : Nat
deriving DecidableEq, Repr

/-- `DNSResourceRecord` of `dnsserver.go`. The Go field `Class` is a reserved
word in Lean and is rendered `rrclass`. Domain names are byte lists. -/
structure DNSResourceRecord where
  domainName : List Nat
  type : Nat
  rrclass : Nat
  timeToLive : Nat
  resourceDataLength : Nat
  resourceData : List Nat
deriving DecidableEq, Repr

/-- `startsWith hay needle`: `needle` is a prefix of `hay` (byte-wise). -/
def startsWith : List Nat → List Nat → Bool
  | _, [] => true
  | [], _ :: _ => false
  | a :: as, b :: bs => a == b && startsWith as bs

/-- `containsSeq hay needle` models Go `strings.Contains(hay, needle)`:
`needle` occurs contiguously inside `hay`. -/
def containsSeq : List Nat → List Nat → Bool
  | hay, needle =>
    if startsWith hay needle then true
    else
      match hay with
      | [] => false
      | _ :: t => containsSeq t needle

/-- The bytes of the string literal `"ip4"`. -/
def ip4lit : List Nat := [105, 112, 52]

/-- The bytes of the string literal `"ip6"`. -/
def ip6lit : List Nat := [105, 112, 54]

/-- `dbLookup` of `dnsserver.go` (lines 80-149).

The external collaborators appear as parameters: `store` models
`redisClient.Get` + `.Val()` (returns the empty string on a miss), and
`parseIP` models `net.ParseIP` at its interface (`none` for an unparseable
literal, otherwise a 16-byte address; `net.ParseIP` always returns the
16-byte form, IPv4 addresses in IPv4-in-IPv6 form). `expiry` models the
global `ExpiryTimeInSeconds`; the Go conversion `uint32(ExpiryTimeInSeconds)`
is `% 2 ^ 32`.

The Go code never checks `parsedAddress` for `nil`: in the `ip4`/`TypeA`
branch, `parsedAddress[12:16]` panics when the parse failed (or the slice is
shorter than 16), modelled by `none`; in the `ip6` branches a `nil`
`parsedAddress` is stored as-is as `ResourceData`, i.e. an empty byte list. -/
def dbLookup (parseIP : List Nat → Option (List Nat)) (store : List Nat → List Nat)
    (expiry : Nat) (queryResourceRecord : DNSResourceRecord) :
    Option (List DNSResourceRecord × List DNSResourceRecord × List DNSResourceRecord) :=
  if queryResourceRecord.rrclass ≠ ClassINET then
    some ([], [], [])
  else if queryResourceRecord.type = TypeA ∨ queryResourceRecord.type = TypeAAAA then
    let v := store queryResourceRecord.domainName
    if v = [] then
      some ([], [], [])
    else
      let parsedAddress := parseIP v
      if containsSeq queryResourceRecord.domainName ip4lit then
        if queryResourceRecord.type = TypeA then
          match parsedAddress with
          | none => none
          | some addr =>
            if 16 ≤ addr.length then
              some ([{ domainName := queryResourceRecord.domainName
                       type := TypeA
                       rrclass := ClassINET
                       timeToLive := expiry % 4294967296
                       resourceDataLength := 4
                       resourceData := (addr.drop 12).take 4 }], [], [])
            else none
        else
          some ([], [], [])
      else if containsSeq queryResourceRecord.domainName ip6lit then
        let data := parsedAddress.getD []
        if queryResourceRecord.type = TypeAAAA then
          some ([{ domainName := queryResourceRecord.domainName
                   type := TypeAAAA
                   rrclass := ClassINET
                   timeToLive := expiry % 4294967296
                   resourceDataLength := 16
                   resourceData := data }], [], [])
        else
          some ([], [], [{ domainName := queryResourceRecord.domainName
                           type := TypeAAAA
                           rrclass := ClassINET
                           timeToLive := expiry % 4294967296
                           resourceDataLength := 16
                           resourceData := data }])
      else
        some ([], [], [])
  else
    some ([], [], [])

/-! ## Name codec -/

/-- The loop of `readDomainName` (lines 155-173): `acc` is the `domainName`
accumulator, the byte list is the remaining buffer. Each step reads a length
octet `b`; `b = 0` ends the name; otherwise `buffer.Next(b)` takes up to `b`
bytes as a label, appended to the accumulator with a `.` (byte 46) separator
unless the accumulator is still empty. An exhausted buffer before a zero
octet is the `ReadByte` error, the `true` in the result. -/
def readDomainNameLoop (acc : List Nat) : List Nat → List Nat × List Nat × Bool
  | [] => (acc, [], true)
  | b :: rest =>
    if b = 0 then (acc, rest, false)
    else
      readDomainNameLoop
        (if acc = [] then rest.take b else acc ++ 46 :: rest.take b)
        (rest.drop b)
termination_by l => l.length
decreasing_by simp [List.length_drop]; omega

/-- `readDomainName` of `dnsserver.go`: returns the domain name, the
remaining buffer, and the error flag. -/
def readDomainName (requestBuffer : List Nat) : List Nat × List Nat × Bool :=
  readDomainNameLoop [] requestBuffer

/-- Go `strings.Split(s, ".")` on byte lists: split on byte 46; never empty,
`[[]]` on the empty string. -/
def splitOnDot : List Nat → List (List Nat)
  | [] => [[]]
  | b :: rest =>
    match splitOnDot rest with
    | [] => [[]]
    | l :: ls => if b = 46 then [] :: l :: ls else (b :: l) :: ls

/-- `writeDomainName` of `dnsserver.go` (lines 179-193): split the name on
`.`, write each label as a length octet (Go `byte(labelLength)`, i.e.
`% 256`) followed by its bytes, then a terminating zero octet. -/
def writeDomainName (domainName : List Nat) : List Nat :=
  ((splitOnDot domainName).flatMap fun label => label.length % 256 :: label) ++ [0]

/-! ## Message codec -/

/-- Big-endian encoding of a 16-bit value, as `binary.Write`/the repository's
`Write` helper produce for a `uint16`. Modelled from the spec: the `Write`
helper called by `handleDNSClient` is defined in the repository outside this
file; per §4.2 it writes fields in network byte order (big-endian). -/
def put16 (n : Nat) : List Nat := [n / 256 % 256, n % 256]

/-- Big-endian encoding of a 32-bit value. Modelled from the spec: the
`Write` helper is defined outside this file; per §4.2 the TTL is 4 bytes
big-endian. -/
def put32 (n : Nat) : List Nat :=
  [n / 16777216 % 256, n / 65536 % 256, n / 256 % 256, n % 256]

/-- Read two big-endian bytes, modelling
`binary.BigEndian.Uint16(requestBuffer.Next(2))`: `Next(2)` yields whatever
is available and `Uint16` panics (`none`) when fewer than 2 bytes remain. -/
def readUint16 : List Nat → Option (Nat × List Nat)
  | a :: b :: rest => some (256 * a + b, rest)
  | _ => none

/-- The 16-bit big-endian value at offset `i` of a buffer. -/
def get16 (bs : List Nat) (i : Nat) : Nat :=
  256 * bs.getD i 0 + bs.getD (i + 1) 0

/-- `binary.Read(requestBuffer, binary.BigEndian, &queryHeader)`: with fewer
than 12 bytes the read fails and the header keeps its zero value (Go
`binary.Read` fills the struct only after a full `io.ReadFull`); the error
flag is the third component. -/
def decodeHeader (bs : List Nat) : DNSHeader × List Nat × Bool :=
  if 12 ≤ bs.length then
    ({ transactionID := get16 bs 0
       flags := get16 bs 2
       numQuestions := get16 bs 4
       numAnswers := get16 bs 6
       numAuthorities := get16 bs 8
       numAdditionals := get16 bs 10 }, bs.drop 12, false)
  else
    ({ transactionID := 0, flags := 0, numQuestions := 0, numAnswers := 0,
       numAuthorities := 0, numAdditionals := 0 }, [], true)

/-- The question-reading loop of `handleDNSClient` (lines 209-220): for each
of the `n` slots read a name (errors are logged and reading continues) and
two 16-bit fields. A record slot starts zero-valued (`make` zeroes the
slice), so TTL, data length and data stay zero/empty. `none` models the
`binary.BigEndian.Uint16` panic on a short buffer. -/
def decodeQuestions : Nat → List Nat → Option (List DNSResourceRecord × List Nat)
  | 0, bs => some ([], bs)
  | n + 1, bs =>
    let r := readDomainName bs
    match readUint16 r.2.1 with
    | none => none
    | some (ty, rest2) =>
      match readUint16 rest2 with
      | none => none
      | some (cl, rest3) =>
        match decodeQuestions n rest3 with
        | none => none
        | some (qs, rest4) =>
          some ({ domainName := r.1, type := ty, rrclass := cl, timeToLive := 0,
                  resourceDataLength := 0, resourceData := [] } :: qs, rest4)

/-- A DNS message: header plus the four record sections (spec §3). -/
structure DNSMessage where
  header : DNSHeader
  questions : List DNSResourceRecord
  answers : List DNSResourceRecord
  authorities : List DNSResourceRecord
  additionals : List DNSResourceRecord
deriving DecidableEq, Repr

/-- Header serialization: six 16-bit fields big-endian, as
`Write(responseBuffer, &responseHeader)` produces. Modelled from the spec:
the `Write` helper is defined outside this file; §4.2 fixes the layout. -/
def encodeHeader (h : DNSHeader) : List Nat :=
  put16 h.transactionID ++ put16 h.flags ++ put16 h.numQuestions ++
    put16 h.numAnswers ++ put16 h.numAuthorities ++ put16 h.numAdditionals

/-- One question-section entry as written by `handleDNSClient` (lines
258-267): name, type, class. -/
def encodeQuestion (q : DNSResourceRecord) : List Nat :=
  writeDomainName q.domainName ++ put16 q.type ++ put16 q.rrclass

/-- One non-question record as written by `handleDNSClient` (lines 269-309):
name, type, class, TTL, resource-data length, raw resource data. -/
def encodeRR (r : DNSResourceRecord) : List Nat :=
  writeDomainName r.domainName ++ put16 r.type ++ put16 r.rrclass ++
    put32 r.timeToLive ++ put16 r.resourceDataLength ++ r.resourceData

/-- The full response serialization of `handleDNSClient` (lines 240-309):
header, question section, answers, authorities, additionals. -/
def encodeMessage (m : DNSMessage) : List Nat :=
  encodeHeader m.header ++ m.questions.flatMap encodeQuestion ++
    m.answers.flatMap encodeRR ++ m.authorities.flatMap encodeRR ++
    m.additionals.flatMap encodeRR

/-- The decode phase of `handleDNSClient` (lines 199-220) as a message
parser: header (best effort), then `NumQuestions` question entries. The
answer, authority and additional sections are never parsed and come back
empty. `none` models the in-handler panic on a short question entry. -/
def decodeMessage (bs : List Nat) : Option DNSMessage :=
  let h := decodeHeader bs
  match decodeQuestions h.1.numQuestions h.2.1 with
  | none => none
  | some (qs, _) =>
    some { header := h.1, questions := qs, answers := [], authorities := [],
           additionals := [] }

/-- The lookup loop of `handleDNSClient` (lines 229-235): run `dbLookup` on
each question and concatenate the three result lists in question order.
`none` models a panic inside `dbLookup`. -/
def lookupAll (parseIP : List Nat → Option (List Nat)) (store : List Nat → List Nat)
    (expiry : Nat) :
    List DNSResourceRecord →
      Option (List DNSResourceRecord × List DNSResourceRecord × List DNSResourceRecord)
  | [] => some ([], [], [])
  | q :: qs =>
    match dbLookup parseIP store expiry q with
    | none => none
    | some (a1, u1, d1) =>
      match lookupAll parseIP store expiry qs with
      | none => none
      | some (a2, u2, d2) => some (a1 ++ a2, u1 ++ u2, d1 ++ d2)

/-- `handleDNSClient` of `dnsserver.go` up to serialization: decode the
header and questions, resolve each question, and build the response message
(transaction ID echoed, flags set to `FlagResponse`, `NumQuestions` copied
from the query header, the other counts `uint16(len(...))` of the built
lists). `none` models a handler panic (no response sent). -/
def handleDNSClient (parseIP : List Nat → Option (List Nat)) (store : List Nat → List Nat)
    (expiry : Nat) (requestBytes : List Nat) : Option DNSMessage :=
  let h := decodeHeader requestBytes
  match decodeQuestions h.1.numQuestions h.2.1 with
  | none => none
  | some (qs, _) =>
    match lookupAll parseIP store expiry qs with
    | none => none
    | some (ans, auth, add) =>
      some { header := { transactionID := h.1.transactionID
                         flags := FlagResponse
                         numQuestions := h.1.numQuestions
                         numAnswers := ans.length % 65536
                         numAuthorities := auth.length % 65536
                         numAdditionals := add.length % 65536 }
             questions := qs
             answers := ans
             authorities := auth
             additionals := add }

/-- The serialized response bytes written to the UDP socket. -/
def handleDNSClientBytes (parseIP : List Nat → Option (List Nat))
    (store : List Nat → List Nat) (expiry : Nat) (requestBytes : List Nat) :
    Option (List Nat) :=
  (handleDNSClient parseIP store expiry requestBytes).map encodeMessage

end HumanDNS
namespace HumanDNS

/-! ## Name codec lemmas -/

/-- Reference form, from the spec wording for `decode_name`: the label
sequence read by repeated length-prefixed reads, `none` when the reader is
exhausted before a zero-length label octet. -/
def readLabelsSpec : List Nat → Option (List (List Nat) × List Nat)
  | [] => none
  | b :: rest =>
    if b = 0 then some ([], rest)
    else
      match readLabelsSpec (rest.drop b) with
      | none => none
      | some (ls, r) => some (rest.take b :: ls, r)
termination_by l => l.length
decreasing_by simp [List.length_drop]; omega

/-- Reference form, from the spec wording: labels concatenated with `.`
separators, omitting the leading separator for the first label. -/
def dotJoin : List (List Nat) → List Nat
  | [] => []
  | l :: ls => l ++ ls.flatMap fun x => 46 :: x

/-! ## Concrete instances of the external collaborators, used to evaluate the
definitions on concrete inputs -/

/-- A `net.ParseIP` instance that fails on every input (models the behaviour
on unparseable literals such as `"x"`). -/
def parseIPNone : List Nat → Option (List Nat) := fun _ => none

/-- A key-value store with no entries (`GET` returns the empty string). -/
def storeEmpty : List Nat → List Nat := fun _ => []

/-- The 16-byte (IPv4-in-IPv6) form of `127.0.0.1`, as `net.ParseIP` returns it. -/
def addr4 : List Nat := [0, 0, 0, 0, 0, 0, 0, 0, 0, 0, 255, 255, 127, 0, 0, 1]

/-- The 16-byte form of `::1`. -/
def addr6 : List Nat := [0, 0, 0, 0, 0, 0, 0, 0, 0, 0, 0, 0, 0, 0, 0, 1]

/-- The bytes of the string `"127.0.0.1"`. -/
def val4 : List Nat := [49, 50, 55, 46, 48, 46, 48, 46, 49]

/-- The bytes of the string `"::1"`. -/
def val6 : List Nat := [58, 58, 49]

/-- The bytes of the domain name `"foo.ip4"`. -/
def name4 : List Nat := [102, 111, 111, 46, 105, 112, 52]

/-- The bytes of the domain name `"bar.ip6"`. -/
def name6 : List Nat := [98, 97, 114, 46, 105, 112, 54]

/-- The bytes of the domain name `"ip4ip6"`, containing both substrings. -/
def name46 : List Nat := [105, 112, 52, 105, 112, 54]

/-- `net.ParseIP` restricted to the literals used in the concrete instances:
`"127.0.0.1"` parses to its IPv4-in-IPv6 16-byte form, `"::1"` to its 16-byte
form, everything else is unparseable. -/
def parseIPDemo : List Nat → Option (List Nat) := fun v =>
  if v = val4 then some addr4 else if v = val6 then some addr6 else none

/-- A store mapping `"foo.ip4"` and `"ip4ip6"` to `"127.0.0.1"` and
`"bar.ip6"` to `"::1"`. -/
def storeDemo : List Nat → List Nat := fun n =>
  if n = name4 then val4 else if n = name6 then val6 else
  if n = name46 then val4 else []

/-- A question record for `name` with the given type, class IN, other fields
zero (as the decoder produces). -/
def question (name : List Nat) (ty : Nat) : DNSResourceRecord :=
  { domainName := name, type := ty, rrclass := 1, timeToLive := 0,
    resourceDataLength := 0, resourceData := [] }

/-- A message with one answer record and counts matching its list lengths. -/
def msgWithAnswer : DNSMessage :=
  { header := { transactionID := 0, flags := 0, numQuestions := 0,
                numAnswers := 1, numAuthorities := 0, numAdditionals := 0 }
    questions := []
    answers := [{ domainName := [97], type := 1, rrclass := 1, timeToLive := 0,
                  resourceDataLength := 4, resourceData := [1, 2, 3, 4] }]
    authorities := []
    additionals := [] }

/-- A message with one question (`"a.b"`, type A, class IN), empty
answer/authority/additional sections, counts matching. -/
def msgOneQuestion : DNSMessage :=
  { header := { transactionID := 513, flags := 0, numQuestions := 1,
                numAnswers := 0, numAuthorities := 0, numAdditionals := 0 }
    questions := [question [97, 46, 98] 1]
    answers := []
    authorities := []
    additionals := [] }

/-- The response the handler builds for an all-zero 12-byte datagram. -/
def respZero : DNSMessage :=
  { header := { transactionID := 0, flags := 32768, numQuestions := 0,
                numAnswers := 0, numAuthorities := 0, numAdditionals := 0 }
    questions := [], answers := [], authorities := [], additionals := [] }

/-- The response the handler builds for the 12-byte datagram starting `1 2`. -/
def resp258 : DNSMessage :=
  { header := { transactionID := 258, flags := 32768, numQuestions := 0,
                numAnswers := 0, numAuthorities := 0, numAdditionals := 0 }
    questions := [], answers := [], authorities := [], additionals := [] }

theorem splitOnDot_ne_nil (n : List Nat) : splitOnDot n ≠ [] := by
  cases n with
  | nil => simp [splitOnDot]
  | cons b rest =>
    simp only [splitOnDot]
    cases splitOnDot rest with
    | nil => simp
    | cons l ls =>
      by_cases hb : b = 46 <;> simp [hb]

theorem dotJoin_splitOnDot (n : List Nat) : dotJoin (splitOnDot n) = n := by
  induction n with
  | nil => simp [splitOnDot, dotJoin]
  | cons b rest ih =>
    simp only [splitOnDot]
    rcases hs : splitOnDot rest with _ | ⟨l, ls⟩
    · exact absurd hs (splitOnDot_ne_nil rest)
    · rw [hs] at ih
      by_cases hb : b = 46
      · subst hb
        simp only [if_pos rfl, dotJoin, List.flatMap_cons, List.nil_append]
        simp only [dotJoin] at ih
        simp [ih]
      · simp only [if_neg hb, dotJoin, List.cons_append]
        simp only [dotJoin] at ih
        simp [ih]

theorem foldlJoin_acc_ne_nil (ls : List (List Nat)) :
    ∀ acc : List Nat, acc ≠ [] →
      ls.foldl (fun a l => if a = [] then l else a ++ 46 :: l) acc =
        acc ++ ls.flatMap fun x => 46 :: x := by
  induction ls with
  | nil => intro acc _; simp
  | cons l ls ih =>
    intro acc hacc
    simp only [List.foldl_cons, if_neg hacc, List.flatMap_cons]
    rw [ih (acc ++ 46 :: l) (by simp)]
    simp

theorem foldlJoin_eq_dotJoin (ls : List (List Nat)) (h : ∀ l ∈ ls, l ≠ []) :
    ls.foldl (fun a l => if a = [] then l else a ++ 46 :: l) [] = dotJoin ls := by
  cases ls with
  | nil => simp [dotJoin]
  | cons l ls =>
    have hl : l ≠ [] := h l (by simp)
    simp only [List.foldl_cons, if_pos rfl, dotJoin]
    exact foldlJoin_acc_ne_nil ls l hl

theorem readDomainNameLoop_encodedLabels (ls : List (List Nat)) :
    ∀ (acc rest : List Nat), (∀ l ∈ ls, l ≠ [] ∧ l.length < 256) →
      readDomainNameLoop acc ((ls.flatMap fun l => l.length % 256 :: l) ++ 0 :: rest) =
        (ls.foldl (fun a l => if a = [] then l else a ++ 46 :: l) acc, rest, false) := by
  induction ls with
  | nil =>
    intro acc rest _
    simp [readDomainNameLoop]
  | cons l ls ih =>
    intro acc rest h
    have hl : l ≠ [] ∧ l.length < 256 := h l (by simp)
    have hmod : l.length % 256 = l.length := Nat.mod_eq_of_lt hl.2
    have hne : ¬ (l.length % 256 = 0) := by
      rw [hmod]
      simp [List.length_eq_zero, hl.1]
    simp only [List.flatMap_cons, List.cons_append, List.append_assoc]
    rw [readDomainNameLoop, if_neg hne, hmod, List.take_left, List.drop_left]
    rw [ih _ rest (fun x hx => h x (by simp [hx]))]
    simp

/-- Write-then-read on a name with well-formed labels, with trailing bytes. -/
theorem readDomainName_writeDomainName_append (n rest : List Nat)
    (h : ∀ l ∈ splitOnDot n, l ≠ [] ∧ l.length < 256) :
    readDomainName (writeDomainName n ++ rest) = (n, rest, false) := by
  unfold readDomainName writeDomainName
  rw [List.append_assoc, List.singleton_append]
  rw [readDomainNameLoop_encodedLabels (splitOnDot n) [] rest h]
  rw [foldlJoin_eq_dotJoin (splitOnDot n) (fun l hl => (h l hl).1)]
  rw [dotJoin_splitOnDot]

end HumanDNS
namespace HumanDNS

/-! ## Message codec lemmas -/

theorem readUint16_put16 (n : Nat) (rest : List Nat) (h : n < 65536) :
    readUint16 (put16 n ++ rest) = some (n, rest) := by
  simp only [put16, List.cons_append, List.nil_append, readUint16]
  congr 2
  omega

theorem decodeHeader_encodeHeader (h : DNSHeader) (rest : List Nat)
    (h1 : h.transactionID < 65536) (h2 : h.flags < 65536)
    (h3 : h.numQuestions < 65536) (h4 : h.numAnswers < 65536)
    (h5 : h.numAuthorities < 65536) (h6 : h.numAdditionals < 65536) :
    decodeHeader (encodeHeader h ++ rest) = (h, rest, false) := by
  have hb : encodeHeader h ++ rest =
      h.transactionID / 256 % 256 :: h.transactionID % 256 ::
      h.flags / 256 % 256 :: h.flags % 256 ::
      h.numQuestions / 256 % 256 :: h.numQuestions % 256 ::
      h.numAnswers / 256 % 256 :: h.numAnswers % 256 ::
      h.numAuthorities / 256 % 256 :: h.numAuthorities % 256 ::
      h.numAdditionals / 256 % 256 :: h.numAdditionals % 256 :: rest := by
    simp [encodeHeader, put16]
  rw [hb]
  rw [decodeHeader, if_pos (by simp)]
  simp only [List.drop_succ_cons, List.drop_zero]
  congr 1
  simp only [get16, List.getD_cons_zero, List.getD_cons_succ]
  cases h
  congr 1 <;> (simp_all; omega)

theorem decodeQuestions_encode (qs : List DNSResourceRecord) :
    ∀ rest : List Nat,
      (∀ q ∈ qs, q.type < 65536 ∧ q.rrclass < 65536 ∧ q.timeToLive = 0 ∧
        q.resourceDataLength = 0 ∧ q.resourceData = [] ∧
        ∀ l ∈ splitOnDot q.domainName, l ≠ [] ∧ l.length < 256) →
      decodeQuestions qs.length (qs.flatMap encodeQuestion ++ rest) = some (qs, rest) := by
  induction qs with
  | nil => intro rest _; simp [decodeQuestions]
  | cons q qs ih =>
    intro rest h
    obtain ⟨hty, hcl, httl, hrdl, hrd, hname⟩ := h q (by simp)
    simp only [List.flatMap_cons, List.length_cons, List.append_assoc, encodeQuestion]
    rw [decodeQuestions]
    rw [readDomainName_writeDomainName_append _ _ hname]
    simp only []
    simp only [readUint16_put16 _ _ hty, readUint16_put16 _ _ hcl,
      ih rest (fun x hx => h x (List.mem_cons_of_mem q hx))]
    cases q
    simp_all

end HumanDNS
namespace HumanDNS

/-! ## Resolver and handler shape lemmas -/

theorem dbLookup_shape {p : List Nat → Option (List Nat)} {s : List Nat → List Nat}
    {e : Nat} {q : DNSResourceRecord}
    {t : List DNSResourceRecord × List DNSResourceRecord × List DNSResourceRecord}
    (h : dbLookup p s e q = some t) :
    t.1.length ≤ 1 ∧ t.2.1 = [] ∧ t.2.2.length ≤ 1 := by
  simp only [dbLookup] at h
  repeat' split at h
  all_goals first
    | (obtain rfl := Option.some.inj h; simp)
    | simp at h

theorem lookupAll_shape {p : List Nat → Option (List Nat)} {s : List Nat → List Nat}
    {e : Nat} (qs : List DNSResourceRecord)
    {t : List DNSResourceRecord × List DNSResourceRecord × List DNSResourceRecord}
    (h : lookupAll p s e qs = some t) :
    t.1.length ≤ qs.length ∧ t.2.1 = [] ∧ t.2.2.length ≤ qs.length := by
  induction qs generalizing t with
  | nil =>
    simp only [lookupAll] at h
    obtain rfl := Option.some.inj h
    simp
  | cons q qs ih =>
    simp only [lookupAll] at h
    rcases h1 : dbLookup p s e q with _ | ⟨a1, u1, d1⟩
    · rw [h1] at h; exact absurd h (by simp)
    rw [h1] at h; simp only [] at h
    rcases h2 : lookupAll p s e qs with _ | ⟨a2, u2, d2⟩
    · rw [h2] at h; exact absurd h (by simp)
    rw [h2] at h; simp only [] at h
    obtain rfl := Option.some.inj h
    have s1 := dbLookup_shape h1
    have s2 := ih h2
    simp only [List.length_append, List.length_cons] at *
    refine ⟨by omega, ?_, by omega⟩
    simp [s1.2.1, s2.2.1]

theorem decodeQuestions_length {n : Nat} {bs : List Nat}
    {t : List DNSResourceRecord × List Nat} (h : decodeQuestions n bs = some t) :
    t.1.length = n := by
  induction n generalizing bs t with
  | zero =>
    simp only [decodeQuestions] at h
    obtain rfl := Option.some.inj h
    simp
  | succ n ih =>
    rw [decodeQuestions] at h
    rcases h1 : readUint16 (readDomainName bs).2.1 with _ | ⟨ty, rest2⟩
    · rw [h1] at h; exact absurd h (by simp)
    rw [h1] at h; simp only [] at h
    rcases h2 : readUint16 rest2 with _ | ⟨cl, rest3⟩
    · rw [h2] at h; exact absurd h (by simp)
    rw [h2] at h; simp only [] at h
    rcases h3 : decodeQuestions n rest3 with _ | ⟨qs, rest4⟩
    · rw [h3] at h; exact absurd h (by simp)
    rw [h3] at h; simp only [] at h
    obtain rfl := Option.some.inj h
    have := ih h3
    simp_all

theorem getD_lt_256 {bs : List Nat} (hb : ∀ b ∈ bs, b < 256) (i : Nat) :
    bs.getD i 0 < 256 := by
  rcases h : bs[i]? with _ | x
  · simp [List.getD_eq_getElem?_getD, h]
  · rw [List.getD_eq_getElem?_getD, h]
    exact hb x (List.getElem?_mem h)

theorem get16_lt {bs : List Nat} (hb : ∀ b ∈ bs, b < 256) (i : Nat) :
    get16 bs i < 65536 := by
  have h1 := getD_lt_256 hb i
  have h2 := getD_lt_256 hb (i + 1)
  simp only [get16]
  omega

theorem decodeHeader_numQuestions_lt {bs : List Nat} (hb : ∀ b ∈ bs, b < 256) :
    (decodeHeader bs).1.numQuestions < 65536 := by
  unfold decodeHeader
  split
  · exact get16_lt hb 4
  · simp

end HumanDNS
namespace HumanDNS

/-! ## Lemmas relating `readDomainNameLoop` to the spec-level label reader -/

theorem readLabelsSpec_labels_ne_nil :
    ∀ (n : Nat) (bs : List Nat), bs.length ≤ n →
      ∀ {ls : List (List Nat)} {r : List Nat}, readLabelsSpec bs = some (ls, r) →
        ∀ l ∈ ls, l ≠ [] := by
  intro n
  induction n with
  | zero =>
    intro bs hb ls r h l hl
    have : bs = [] := List.length_eq_zero.mp (Nat.le_zero.mp hb)
    subst this
    simp [readLabelsSpec] at h
  | succ n ih =>
    intro bs hb ls r h l hl
    cases bs with
    | nil => simp [readLabelsSpec] at h
    | cons b rest =>
      rw [readLabelsSpec] at h
      by_cases hb0 : b = 0
      · rw [if_pos hb0] at h
        obtain ⟨rfl, rfl⟩ : ([] : List (List Nat)) = ls ∧ rest = r := by
          have := Option.some.inj h
          exact ⟨congrArg Prod.fst this, congrArg Prod.snd this⟩
        simp at hl
      · rw [if_neg hb0] at h
        rcases h2 : readLabelsSpec (rest.drop b) with _ | ⟨ls', r'⟩
        · rw [h2] at h; exact absurd h (by simp)
        rw [h2] at h; simp only [] at h
        obtain ⟨h3, -⟩ := Prod.mk.injEq .. ▸ Option.some.inj h
        subst h3
        have hdrop : rest.drop b ≠ [] := by
          intro hnil
          rw [hnil] at h2
          simp [readLabelsSpec] at h2
        have hblt : b < rest.length := by
          by_contra hge
          exact hdrop (List.drop_eq_nil_of_le (by omega))
        rcases List.mem_cons.mp hl with rfl | hmem
        · have : (rest.take b).length = b := by
            simp [List.length_take]
            omega
          intro hnil
          rw [hnil] at this
          simp at this
          omega
        · have hlen : (rest.drop b).length ≤ n := by
            simp only [List.length_cons] at hb
            simp [List.length_drop]
            omega
          exact ih (rest.drop b) hlen h2 l hmem

theorem readDomainNameLoop_vs_spec :
    ∀ (n : Nat) (bs : List Nat), bs.length ≤ n → ∀ acc : List Nat,
      (readLabelsSpec bs = none → (readDomainNameLoop acc bs).2.2 = true) ∧
      (∀ (ls : List (List Nat)) (r : List Nat), readLabelsSpec bs = some (ls, r) →
        readDomainNameLoop acc bs =
          (ls.foldl (fun a l => if a = [] then l else a ++ 46 :: l) acc, r, false)) := by
  intro n
  induction n with
  | zero =>
    intro bs hb acc
    have : bs = [] := List.length_eq_zero.mp (Nat.le_zero.mp hb)
    subst this
    exact ⟨fun _ => by simp [readDomainNameLoop], fun ls r h => by simp [readLabelsSpec] at h⟩
  | succ n ih =>
    intro bs hb acc
    cases bs with
    | nil =>
      exact ⟨fun _ => by simp [readDomainNameLoop], fun ls r h => by simp [readLabelsSpec] at h⟩
    | cons b rest =>
      by_cases hb0 : b = 0
      · subst hb0
        refine ⟨fun h => ?_, fun ls r h => ?_⟩
        · rw [readLabelsSpec, if_pos rfl] at h
          exact absurd h (by simp)
        · rw [readLabelsSpec, if_pos rfl] at h
          obtain h' := Option.some.inj h
          obtain ⟨rfl, rfl⟩ : ([] : List (List Nat)) = ls ∧ rest = r :=
            ⟨congrArg Prod.fst h', congrArg Prod.snd h'⟩
          simp [readDomainNameLoop]
      · have hlen : (rest.drop b).length ≤ n := by
          simp only [List.length_cons] at hb
          simp [List.length_drop]
          omega
        have hloop : readDomainNameLoop acc (b :: rest) =
            readDomainNameLoop
              (if acc = [] then rest.take b else acc ++ 46 :: rest.take b)
              (rest.drop b) := by
          rw [readDomainNameLoop, if_neg hb0]
        refine ⟨fun h => ?_, fun ls r h => ?_⟩
        · rw [readLabelsSpec, if_neg hb0] at h
          rcases h2 : readLabelsSpec (rest.drop b) with _ | ⟨ls', r'⟩
          · rw [hloop]
            exact (ih (rest.drop b) hlen _).1 h2
          · rw [h2] at h; simp at h
        · rw [readLabelsSpec, if_neg hb0] at h
          rcases h2 : readLabelsSpec (rest.drop b) with _ | ⟨ls', r'⟩
          · rw [h2] at h; exact absurd h (by simp)
          rw [h2] at h; simp only [] at h
          obtain h' := Option.some.inj h
          obtain ⟨rfl, rfl⟩ : rest.take b :: ls' = ls ∧ r' = r :=
            ⟨congrArg Prod.fst h', congrArg Prod.snd h'⟩
          rw [hloop]
          rw [(ih (rest.drop b) hlen _).2 ls' r' h2]
          simp only [List.foldl_cons]

end HumanDNS
namespace HumanDNS

/-! ## Claim theorems -/

/-- C1: the claim says a stored non-empty but unparseable value is treated as
a miss (three empty lists, completing normally) for every IN query of type A
or AAAA. The code does not do this: with the store returning `"x"`
(unparseable, so `net.ParseIP` yields `nil`), a type-A query for `"a.ip4"`
evaluates `parsedAddress[12:16]` on a nil slice and panics (modelled `none`),
and a type-AAAA query for `"b.ip6"` returns a non-empty answer list whose
record claims 16 data bytes but carries none. -/
theorem c1_unparseable_value_not_a_miss :
    dbLookup (fun _ => none) (fun _ => [120]) 1800
      { domainName := [97, 46, 105, 112, 52], type := 1, rrclass := 1,
        timeToLive := 0, resourceDataLength := 0, resourceData := [] } = none ∧
    dbLookup (fun _ => none) (fun _ => [120]) 1800
      { domainName := [98, 46, 105, 112, 54], type := 28, rrclass := 1,
        timeToLive := 0, resourceDataLength := 0, resourceData := [] } =
      some ([{ domainName := [98, 46, 105, 112, 54], type := 28, rrclass := 1,
               timeToLive := 1800, resourceDataLength := 16,
               resourceData := [] }], [], []) := by
  constructor <;> rfl

/-- C2 counterexample: `msgWithAnswer` has all four header counts equal to
its list lengths, yet decoding its encoding does not give it back — the
decoder never parses the answer section. -/
theorem c2_roundtrip_fails_with_answers :
    (msgWithAnswer.header.numQuestions = msgWithAnswer.questions.length ∧
     msgWithAnswer.header.numAnswers = msgWithAnswer.answers.length ∧
     msgWithAnswer.header.numAuthorities = msgWithAnswer.authorities.length ∧
     msgWithAnswer.header.numAdditionals = msgWithAnswer.additionals.length) ∧
    decodeMessage (encodeMessage msgWithAnswer) ≠ some msgWithAnswer := by
  constructor
  · exact ⟨rfl, rfl, rfl, rfl⟩
  · decide

/-- C2 (amended): decode-encode round trip holds for messages whose counts
match their list lengths, whose non-question sections are empty, whose
header fields fit in 16 bits, and whose questions carry 16-bit type/class,
zero TTL, zero data length, empty data, and a domain name with non-empty
labels shorter than 256 bytes. -/
theorem c2_decode_encode_roundtrip (m : DNSMessage)
    (hq : m.header.numQuestions = m.questions.length)
    (ha : m.answers = []) (hu : m.authorities = []) (hd : m.additionals = [])
    (hca : m.header.numAnswers = m.answers.length)
    (hcu : m.header.numAuthorities = m.authorities.length)
    (hcd : m.header.numAdditionals = m.additionals.length)
    (ht : m.header.transactionID < 65536) (hf : m.header.flags < 65536)
    (hnq : m.header.numQuestions < 65536)
    (hwf : ∀ q ∈ m.questions, q.type < 65536 ∧ q.rrclass < 65536 ∧
      q.timeToLive = 0 ∧ q.resourceDataLength = 0 ∧ q.resourceData = [] ∧
      ∀ l ∈ splitOnDot q.domainName, l ≠ [] ∧ l.length < 256) :
    decodeMessage (encodeMessage m) = some m := by
  obtain ⟨h, qs, ans, auth, add⟩ := m
  simp only [] at *
  subst ha hu hd
  simp only [List.length_nil] at hca hcu hcd
  have henc : encodeMessage ⟨h, qs, [], [], []⟩ =
      encodeHeader h ++ (qs.flatMap encodeQuestion ++ []) := by
    simp [encodeMessage]
  rw [decodeMessage, henc]
  rw [decodeHeader_encodeHeader h _ ht hf hnq (by omega) (by omega) (by omega)]
  simp only []
  rw [hq, decodeQuestions_encode qs [] hwf]

/-- C2 witness: the round trip on a concrete one-question message. -/
theorem c2_decode_encode_roundtrip_witness :
    decodeMessage (encodeMessage msgOneQuestion) = some msgOneQuestion :=
  c2_decode_encode_roundtrip msgOneQuestion rfl rfl rfl rfl rfl rfl rfl
    (by decide) (by decide) (by decide) (by decide)

/-- C6 counterexample: a single-label name of 256 bytes has no zero-length
label, but `byte(labelLength)` truncates 256 to 0, so the decoder stops at
once and the round trip fails. -/
theorem splitOnDot_no_dot (n : List Nat) (h : ∀ b ∈ n, b ≠ 46) :
    splitOnDot n = [n] := by
  induction n with
  | nil => rfl
  | cons b rest ih =>
    have hb : b ≠ 46 := h b (by simp)
    rw [splitOnDot, ih (fun x hx => h x (by simp [hx]))]
    simp only []
    rw [if_neg hb]

theorem c6_roundtrip_fails_long_label :
    (∀ l ∈ splitOnDot (List.replicate 256 97), l ≠ []) ∧
    (readDomainName (writeDomainName (List.replicate 256 97))).1 ≠
      List.replicate 256 97 := by
  have hsplit : splitOnDot (List.replicate 256 97) = [List.replicate 256 97] :=
    splitOnDot_no_dot _ (by
      intro b hb
      rw [List.eq_of_mem_replicate hb]
      omega)
  have hw : writeDomainName (List.replicate 256 97) =
      0 :: (List.replicate 256 97 ++ [0]) := by
    rw [writeDomainName, hsplit]
    simp only [List.flatMap_cons, List.flatMap_nil, List.append_nil,
      List.length_replicate, List.cons_append]
  constructor
  · intro l hl
    rw [hsplit] at hl
    obtain rfl := List.mem_singleton.mp hl
    intro hnil
    have hlen := congrArg List.length hnil
    simp only [List.length_replicate, List.length_nil] at hlen
    omega
  · rw [hw, readDomainName, readDomainNameLoop, if_pos rfl]
    intro hcontra
    have hlen := congrArg List.length hcontra
    simp only [List.length_replicate, List.length_nil] at hlen
    omega

/-- C6 (amended): write-then-read is the identity on names all of whose
labels are non-empty and shorter than 256 bytes. -/
theorem c6_name_roundtrip (n : List Nat)
    (h : ∀ l ∈ splitOnDot n, l ≠ [] ∧ l.length < 256) :
    readDomainName (writeDomainName n) = (n, [], false) := by
  have := readDomainName_writeDomainName_append n [] h
  simpa using this

/-- C6 witness: the round trip on `"a.bc"`. -/
theorem c6_name_roundtrip_witness :
    readDomainName (writeDomainName [97, 46, 98, 99]) = ([97, 46, 98, 99], [], false) :=
  c6_name_roundtrip [97, 46, 98, 99] (by decide)

/-- C8: `readDomainName` errors exactly when the buffer is exhausted before a
zero length octet (`readLabelsSpec` returns `none`), and otherwise returns,
with no error, the labels read joined with `.` separators and no leading
separator (`dotJoin`), leaving the rest of the buffer. -/
theorem c8_readDomainName_matches_spec (bs : List Nat) :
    ((readDomainName bs).2.2 = true ↔ readLabelsSpec bs = none) ∧
    (∀ (ls : List (List Nat)) (r : List Nat), readLabelsSpec bs = some (ls, r) →
      readDomainName bs = (dotJoin ls, r, false)) := by
  constructor
  · constructor
    · intro herr
      rcases h : readLabelsSpec bs with _ | ⟨ls, r⟩
      · rfl
      · have := (readDomainNameLoop_vs_spec bs.length bs le_rfl []).2 ls r h
        rw [readDomainName] at herr
        rw [this] at herr
        simp at herr
    · intro hnone
      exact (readDomainNameLoop_vs_spec bs.length bs le_rfl []).1 hnone
  · intro ls r h
    have hne := readLabelsSpec_labels_ne_nil bs.length bs le_rfl h
    have := (readDomainNameLoop_vs_spec bs.length bs le_rfl []).2 ls r h
    rw [readDomainName, this, foldlJoin_eq_dotJoin ls hne]

/-- C8 witness: reading `1 a 1 b 0` followed by a stray byte yields `"a.b"`
with the stray byte left over and no error. -/
theorem c8_readDomainName_matches_spec_witness :
    readDomainName [1, 97, 1, 98, 0, 9] = ([97, 46, 98], [9], false) := by
  have h : readLabelsSpec [1, 97, 1, 98, 0, 9] = some ([[97], [98]], [9]) := by
    rw [readLabelsSpec]
    norm_num
    rw [readLabelsSpec]
    norm_num
    rw [readLabelsSpec]
    norm_num
  have := (c8_readDomainName_matches_spec [1, 97, 1, 98, 0, 9]).2 [[97], [98]] [9] h
  rw [this]
  rfl

end HumanDNS
namespace HumanDNS

/-- C3: whenever the handler completes and builds a response, each header
count field equals the length of the corresponding record list of the
response, whatever the (byte-valued) datagram said in its own header. -/
theorem c3_response_counts (parseIP : List Nat → Option (List Nat))
    (store : List Nat → List Nat) (expiry : Nat) (requestBytes : List Nat)
    (m : DNSMessage) (hb : ∀ b ∈ requestBytes, b < 256)
    (h : handleDNSClient parseIP store expiry requestBytes = some m) :
    m.header.numQuestions = m.questions.length ∧
    m.header.numAnswers = m.answers.length ∧
    m.header.numAuthorities = m.authorities.length ∧
    m.header.numAdditionals = m.additionals.length := by
  simp only [handleDNSClient] at h
  rcases h1 : decodeQuestions (decodeHeader requestBytes).1.numQuestions
      (decodeHeader requestBytes).2.1 with _ | ⟨qs, rest⟩
  · rw [h1] at h; exact absurd h (by simp)
  rw [h1] at h; simp only [] at h
  rcases h2 : lookupAll parseIP store expiry qs with _ | ⟨ans, auth, add⟩
  · rw [h2] at h; exact absurd h (by simp)
  rw [h2] at h; simp only [] at h
  obtain rfl := Option.some.inj h
  have hqlen : qs.length = (decodeHeader requestBytes).1.numQuestions :=
    decodeQuestions_length h1
  have hnq : (decodeHeader requestBytes).1.numQuestions < 65536 :=
    decodeHeader_numQuestions_lt hb
  have hshape := lookupAll_shape qs h2
  simp only [] at hshape
  refine ⟨hqlen.symm, ?_, ?_, ?_⟩
  · exact Nat.mod_eq_of_lt (by omega)
  · simp [hshape.2.1]
  · exact Nat.mod_eq_of_lt (by omega)

/-- C3 witness: an all-zero 12-byte datagram produces a response whose
counts all equal the (empty) section lengths. -/
theorem c3_response_counts_witness :
    respZero.header.numQuestions = respZero.questions.length ∧
    respZero.header.numAnswers = respZero.answers.length ∧
    respZero.header.numAuthorities = respZero.authorities.length ∧
    respZero.header.numAdditionals = respZero.additionals.length :=
  c3_response_counts parseIPNone storeEmpty 1800 (List.replicate 12 0) respZero
    (by decide) (by rfl)

end HumanDNS
namespace HumanDNS

/-- C4: for an IN query whose name contains `"ip4"` and whose stored value
parses to a 16-byte address, a type-A query yields exactly one answer — type
A, class IN, the 4 IPv4 bytes (`parsedAddress[12:16]`), data length 4, TTL
the configured expiry — and a type-AAAA query yields three empty lists. -/
theorem c4_ip4_policy (parseIP : List Nat → Option (List Nat))
    (store : List Nat → List Nat) (expiry : Nat) (q : DNSResourceRecord)
    (addr : List Nat)
    (hcl : q.rrclass = ClassINET)
    (h4 : containsSeq q.domainName ip4lit = true)
    (hv : store q.domainName ≠ [])
    (hp : parseIP (store q.domainName) = some addr)
    (hlen : addr.length = 16)
    (hexp : expiry < 4294967296) :
    (q.type = TypeA →
      dbLookup parseIP store expiry q =
        some ([{ domainName := q.domainName, type := TypeA, rrclass := ClassINET,
                 timeToLive := expiry, resourceDataLength := 4,
                 resourceData := (addr.drop 12).take 4 }], [], []) ∧
      ((addr.drop 12).take 4).length = 4) ∧
    (q.type = TypeAAAA → dbLookup parseIP store expiry q = some ([], [], [])) := by
  constructor
  · intro hty
    constructor
    · simp [dbLookup, hcl, hty, h4, hp, hv, hlen, Nat.mod_eq_of_lt hexp]
    · simp [List.length_take, List.length_drop, hlen]
  · intro hty
    simp [dbLookup, hcl, hty, h4, hv, TypeA, TypeAAAA]

/-- C4 witness: `"foo.ip4" -> "127.0.0.1"` under types A and AAAA. -/
theorem c4_ip4_policy_witness :
    dbLookup parseIPDemo storeDemo 1800 (question name4 1) =
      some ([{ domainName := name4, type := 1, rrclass := 1, timeToLive := 1800,
               resourceDataLength := 4, resourceData := [127, 0, 0, 1] }], [], []) ∧
    dbLookup parseIPDemo storeDemo 1800 (question name4 28) = some ([], [], []) := by
  constructor
  · exact ((c4_ip4_policy parseIPDemo storeDemo 1800 (question name4 1) addr4
      rfl (by decide) (by decide) rfl (by decide) (by decide)).1 rfl).1
  · exact (c4_ip4_policy parseIPDemo storeDemo 1800 (question name4 28) addr4
      rfl (by decide) (by decide) rfl (by decide) (by decide)).2 rfl

/-- C5: for an IN query whose name contains `"ip6"` (and not `"ip4"`) and
whose stored value parses to a 16-byte address, a type-AAAA query yields
exactly one 16-byte AAAA answer, and a type-A query yields no answer and no
authority but exactly one 16-byte AAAA record, class IN, TTL the configured
expiry, in the additional section. -/
theorem c5_ip6_policy (parseIP : List Nat → Option (List Nat))
    (store : List Nat → List Nat) (expiry : Nat) (q : DNSResourceRecord)
    (addr : List Nat)
    (hcl : q.rrclass = ClassINET)
    (h4f : containsSeq q.domainName ip4lit = false)
    (h6 : containsSeq q.domainName ip6lit = true)
    (hv : store q.domainName ≠ [])
    (hp : parseIP (store q.domainName) = some addr)
    (hlen : addr.length = 16)
    (hexp : expiry < 4294967296) :
    (q.type = TypeAAAA →
      dbLookup parseIP store expiry q =
        some ([{ domainName := q.domainName, type := TypeAAAA, rrclass := ClassINET,
                 timeToLive := expiry, resourceDataLength := 16,
                 resourceData := addr }], [], []) ∧ addr.length = 16) ∧
    (q.type = TypeA →
      dbLookup parseIP store expiry q =
        some ([], [],
          [{ domainName := q.domainName, type := TypeAAAA, rrclass := ClassINET,
             timeToLive := expiry, resourceDataLength := 16,
             resourceData := addr }])) := by
  constructor
  · intro hty
    refine ⟨?_, hlen⟩
    simp [dbLookup, hcl, hty, h4f, h6, hp, hv, Nat.mod_eq_of_lt hexp]
  · intro hty
    simp [dbLookup, hcl, hty, h4f, h6, hp, hv, Nat.mod_eq_of_lt hexp, TypeA, TypeAAAA]

/-- C5 witness: `"bar.ip6" -> "::1"` under types AAAA and A. -/
theorem c5_ip6_policy_witness :
    dbLookup parseIPDemo storeDemo 1800 (question name6 28) =
      some ([{ domainName := name6, type := 28, rrclass := 1, timeToLive := 1800,
               resourceDataLength := 16, resourceData := addr6 }], [], []) ∧
    dbLookup parseIPDemo storeDemo 1800 (question name6 1) =
      some ([], [],
        [{ domainName := name6, type := 28, rrclass := 1, timeToLive := 1800,
           resourceDataLength := 16, resourceData := addr6 }]) := by
  constructor
  · exact ((c5_ip6_policy parseIPDemo storeDemo 1800 (question name6 28) addr6
      rfl (by decide) (by decide) (by decide) rfl (by decide) (by decide)).1 rfl).1
  · exact (c5_ip6_policy parseIPDemo storeDemo 1800 (question name6 1) addr6
      rfl (by decide) (by decide) (by decide) rfl (by decide) (by decide)).2 rfl

/-- C7: whenever the handler completes on a datagram of at least 12 bytes,
the response header's flags are exactly `2 ^ 15` (bit 15 set, every other
bit zero) and its transaction ID is the query's, read big-endian from the
first two bytes. -/
theorem c7_response_flags_txid (parseIP : List Nat → Option (List Nat))
    (store : List Nat → List Nat) (expiry : Nat) (requestBytes : List Nat)
    (m : DNSMessage) (hlen : 12 ≤ requestBytes.length)
    (h : handleDNSClient parseIP store expiry requestBytes = some m) :
    m.header.flags = 2 ^ 15 ∧
    m.header.transactionID =
      256 * requestBytes.getD 0 0 + requestBytes.getD 1 0 := by
  simp only [handleDNSClient] at h
  rcases h1 : decodeQuestions (decodeHeader requestBytes).1.numQuestions
      (decodeHeader requestBytes).2.1 with _ | ⟨qs, rest⟩
  · rw [h1] at h; exact absurd h (by simp)
  rw [h1] at h; simp only [] at h
  rcases h2 : lookupAll parseIP store expiry qs with _ | ⟨ans, auth, add⟩
  · rw [h2] at h; exact absurd h (by simp)
  rw [h2] at h; simp only [] at h
  obtain rfl := Option.some.inj h
  refine ⟨rfl, ?_⟩
  show (decodeHeader requestBytes).1.transactionID = _
  rw [decodeHeader, if_pos hlen]
  rfl

/-- C7 witness: a 12-byte datagram starting `1 2` gets a pure response
header with transaction ID 258. -/
theorem c7_response_flags_txid_witness :
    resp258.header.flags = 2 ^ 15 ∧ resp258.header.transactionID = 258 :=
  c7_response_flags_txid parseIPNone storeEmpty 1800
    [1, 2, 0, 0, 0, 0, 0, 0, 0, 0, 0, 0] resp258 (by decide) rfl

/-- C9: `dbLookup` never returns an authority record, so every response the
handler builds has an empty authority section and `NumAuthorities = 0`. -/
theorem c9_no_authority_records (parseIP : List Nat → Option (List Nat))
    (store : List Nat → List Nat) (expiry : Nat) (q : DNSResourceRecord)
    (t : List DNSResourceRecord × List DNSResourceRecord × List DNSResourceRecord)
    (requestBytes : List Nat) (m : DNSMessage) :
    (dbLookup parseIP store expiry q = some t → t.2.1 = []) ∧
    (handleDNSClient parseIP store expiry requestBytes = some m →
      m.authorities = [] ∧ m.header.numAuthorities = 0) := by
  constructor
  · intro h
    exact (dbLookup_shape h).2.1
  · intro h
    simp only [handleDNSClient] at h
    rcases h1 : decodeQuestions (decodeHeader requestBytes).1.numQuestions
        (decodeHeader requestBytes).2.1 with _ | ⟨qs, rest⟩
    · rw [h1] at h; exact absurd h (by simp)
    rw [h1] at h; simp only [] at h
    rcases h2 : lookupAll parseIP store expiry qs with _ | ⟨ans, auth, add⟩
    · rw [h2] at h; exact absurd h (by simp)
    rw [h2] at h; simp only [] at h
    obtain rfl := Option.some.inj h
    have hshape := lookupAll_shape qs h2
    simp only [] at hshape
    exact ⟨hshape.2.1, by simp [hshape.2.1]⟩

/-- C9 witness: the miss lookup returns no authority record, and the
response to an all-zero datagram has an empty authority section. -/
theorem c9_no_authority_records_witness :
    (([], [], []) : List DNSResourceRecord × List DNSResourceRecord ×
      List DNSResourceRecord).2.1 = [] ∧
    respZero.authorities = [] ∧ respZero.header.numAuthorities = 0 :=
  ⟨(c9_no_authority_records parseIPNone storeEmpty 1800 (question [] 1)
      ([], [], []) (List.replicate 12 0) respZero).1 rfl,
   (c9_no_authority_records parseIPNone storeEmpty 1800 (question [] 1)
      ([], [], []) (List.replicate 12 0) respZero).2 rfl⟩

/-- C10: on a name containing both `"ip4"` and `"ip6"` the `ip4` branch wins
(`strings.Contains` on `"ip4"` is checked first): type A yields the single
4-byte A answer, and type AAAA yields three empty lists — in particular no
AAAA record is placed in the additional section. -/
theorem c10_ip4_precedence (parseIP : List Nat → Option (List Nat))
    (store : List Nat → List Nat) (expiry : Nat) (q : DNSResourceRecord)
    (addr : List Nat)
    (hcl : q.rrclass = ClassINET)
    (h4 : containsSeq q.domainName ip4lit = true)
    (h6 : containsSeq q.domainName ip6lit = true)
    (hv : store q.domainName ≠ [])
    (hp : parseIP (store q.domainName) = some addr)
    (hlen : addr.length = 16)
    (hexp : expiry < 4294967296) :
    (q.type = TypeA →
      dbLookup parseIP store expiry q =
        some ([{ domainName := q.domainName, type := TypeA, rrclass := ClassINET,
                 timeToLive := expiry, resourceDataLength := 4,
                 resourceData := (addr.drop 12).take 4 }], [], [])) ∧
    (q.type = TypeAAAA → dbLookup parseIP store expiry q = some ([], [], [])) := by
  constructor
  · intro hty
    simp [dbLookup, hcl, hty, h4, hp, hv, hlen, Nat.mod_eq_of_lt hexp]
  · intro hty
    simp [dbLookup, hcl, hty, h4, hv, TypeA, TypeAAAA]

/-- C10 witness: `"ip4ip6" -> "127.0.0.1"` under types A and AAAA. -/
theorem c10_ip4_precedence_witness :
    dbLookup parseIPDemo storeDemo 1800 (question name46 1) =
      some ([{ domainName := name46, type := 1, rrclass := 1, timeToLive := 1800,
               resourceDataLength := 4, resourceData := [127, 0, 0, 1] }], [], []) ∧
    dbLookup parseIPDemo storeDemo 1800 (question name46 28) = some ([], [], []) := by
  constructor
  · exact (c10_ip4_precedence parseIPDemo storeDemo 1800 (question name46 1) addr4
      rfl (by decide) (by decide) (by decide) rfl (by decide) (by decide)).1 rfl
  · exact (c10_ip4_precedence parseIPDemo storeDemo 1800 (question name46 28) addr4
      rfl (by decide) (by decide) (by decide) rfl (by decide) (by decide)).2 rfl

end HumanDNS
